import Mathlib

/-!
# AffiFlow: workspace-scoped authorization and resource lifecycle, verified

Shallow embedding of the authorization, routing and resource-lifecycle
logic of the AffiFlow multi-tenant application, with theorems checking the
natural-language specification against the embedded code.

The persistence store is modelled as explicit lists of records (one list
per table); each API route handler becomes a pure function from the store
state (plus the request parameters) to a response and the next store state.
Prisma `findFirst` becomes `List.find?`, `findMany` with a `where` clause
becomes `List.filter`, `orderBy` becomes an insertion sort on the ordering
key, and `$transaction` becomes an `Except`-valued body whose failure
leaves the store unchanged.
-/

set_option autoImplicit false

namespace AffiFlow

/-- Workspace-level role of a membership (`UserWorkspace.role`). -/
inductive Role where
  | MEMBER
  | ADMIN
  | OWNER
  deriving DecidableEq, Repr

/-- The fixed rank mapping `{ MEMBER: 0, ADMIN: 1, OWNER: 2 }` used by
`verifyWorkspaceAccess` in `src/app/api/workspaces/[id]/route.ts`. -/
def roleHierarchy : Role → Nat
  | .MEMBER => 0
  | .ADMIN => 1
  | .OWNER => 2

/-- A row of the `UserWorkspace` join table (a workspace membership). -/
structure Membership where
  userId : Nat
  workspaceId : Nat
  role : Role
  deriving DecidableEq, Repr

/-- A row of the `Workspace` table (fields the embedded logic reads). -/
structure Workspace where
  id : Nat
  slug : String
  createdAt : Nat
  updatedAt : Nat
  deletedAt : Option Nat
  deriving DecidableEq, Repr

/-- A row of the `Post` table (fields the embedded logic reads). -/
structure Post where
  id : Nat
  workspaceId : Nat
  slug : String
  title : String
  content : String
  excerpt : String
  isPublished : Bool
  createdAt : Nat
  deletedAt : Option Nat
  deriving DecidableEq, Repr

/-- A row of the `Product` table (fields the embedded logic reads). -/
structure Product where
  id : Nat
  workspaceId : Nat
  categoryId : Option Nat
  activeAffiliateLinkId : Option Nat
  deriving DecidableEq, Repr

/-- A row of the `Category` table. -/
structure Category where
  id : Nat
  workspaceId : Nat
  name : String
  deriving DecidableEq, Repr

/-- A row of the `AffiliateLink` table (fields the embedded logic reads). -/
structure AffiliateLink where
  id : Nat
  workspaceId : Nat
  productId : Nat
  createdAt : Nat
  deriving DecidableEq, Repr

/-- A row of the `PostProduct` join table. -/
structure PostProduct where
  postId : Nat
  productId : Nat
  deriving DecidableEq, Repr

/-- The persistence store: one list per table. -/
structure DB where
  memberships : List Membership
  workspaces : List Workspace
  posts : List Post
  products : List Product
  categories : List Category
  affiliateLinks : List AffiliateLink
  postProducts : List PostProduct
  deriving DecidableEq, Repr

/-- The function `verifyWorkspaceAccess` from `src/app/api/workspaces/[id]/route.ts`:
find the membership for `(workspaceId, userId)`; throw
`"Workspace not found or access denied"` when none exists, throw
`"Insufficient permissions"` when the membership's rank under
`roleHierarchy` is strictly below the required role's rank, and otherwise
return the membership. -/
def verifyWorkspaceAccess (db : DB) (workspaceId userId : Nat)
    (requiredRole : Role) : Except String Membership :=
  match db.memberships.find? (fun m =>
      m.workspaceId == workspaceId && m.userId == userId) with
  | none => .error "Workspace not found or access denied"
  | some userWorkspace =>
      if roleHierarchy userWorkspace.role < roleHierarchy requiredRole then
        .error "Insufficient permissions"
      else
        .ok userWorkspace

/-- The role-less `verifyWorkspaceAccess` helper of the posts and
affiliate-links routes: membership lookup only, throwing
`"Access denied to workspace"` when absent. -/
def verifyWorkspaceMember (db : DB) (workspaceId userId : Nat) :
    Except String Membership :=
  match db.memberships.find? (fun m =>
      m.workspaceId == workspaceId && m.userId == userId) with
  | none => .error "Access denied to workspace"
  | some userWorkspace => .ok userWorkspace

/-- Insertion of one element into a list ordered by a numeric key,
descending (model of the store's `orderBy: { key: "desc" }`). -/
def insertDesc {α : Type} (key : α → Nat) (x : α) : List α → List α
  | [] => [x]
  | y :: ys => if key y < key x then x :: y :: ys else y :: insertDesc key x ys

/-- Sort by a numeric key, descending. -/
def sortDesc {α : Type} (key : α → Nat) : List α → List α
  | [] => []
  | x :: xs => insertDesc key x (sortDesc key xs)

theorem mem_insertDesc {α : Type} (key : α → Nat) (x a : α) (l : List α) :
    a ∈ insertDesc key x l ↔ a = x ∨ a ∈ l := by
  induction l with
  | nil => simp [insertDesc]
  | cons y ys ih =>
      simp only [insertDesc]
      split
      · simp [List.mem_cons]
      · simp [List.mem_cons, ih]
        tauto

theorem mem_sortDesc {α : Type} (key : α → Nat) (a : α) (l : List α) :
    a ∈ sortDesc key l ↔ a ∈ l := by
  induction l with
  | nil => simp [sortDesc]
  | cons x xs ih => simp [sortDesc, mem_insertDesc, ih]

/-- Prefix test on character lists (auxiliary for `jsIncludes`). -/
def startsWithChars : List Char → List Char → Bool
  | _, [] => true
  | [], _ :: _ => false
  | a :: as, b :: bs => a == b && startsWithChars as bs

/-- Substring search on character lists (auxiliary for `jsIncludes`). -/
def containsChars : List Char → List Char → Bool
  | [], sub => sub.isEmpty
  | s@(_ :: t), sub => startsWithChars s sub || containsChars t sub

/-- JavaScript `String.prototype.includes` (case-sensitive substring
test), used by every route's error-to-status mapping. -/
def jsIncludes (s sub : String) : Bool :=
  containsChars s.toList sub.toList

/-- JavaScript `String.prototype.startsWith`. -/
def jsStartsWith (s pre : String) : Bool :=
  startsWithChars s.toList pre.toList

/-- Lowercase-alphanumeric character (`[a-z0-9]`). -/
def isLowerAlnum (c : Char) : Bool :=
  (Char.ofNat 97 ≤ c && c ≤ Char.ofNat 122) ||
  (Char.ofNat 48 ≤ c && c ≤ Char.ofNat 57)

/-- The character JavaScript prints for one base-36 digit (`0-9a-z`). -/
def base36Char (d : Nat) : Char :=
  if d < 10 then Char.ofNat (48 + d) else Char.ofNat (87 + d)

/-- The slug suffix the routes build as
`Math.random().toString(36).substring(2, 8)`. `Math.random()` returns a
double in `[0, 1)`; `toString(36)` prints `"0"` or `"0."` followed by the
(finitely many) base-36 fractional digits JavaScript emits, so
`substring(2, 8)` is the first at-most-six of those digits. The random
draw is modelled by the printed digit list itself. -/
def randomSuffix (digits : List Nat) : String :=
  String.mk ((digits.take 6).map base36Char)

/-- ASCII whitespace, the characters the `\s` class and `trim()` match
on the inputs this model ranges over (space, tab, LF, VT, FF, CR). -/
def isJsWhitespace (c : Char) : Bool :=
  c == ' ' || c == Char.ofNat 9 || c == Char.ofNat 10 ||
  c == Char.ofNat 11 || c == Char.ofNat 12 || c == Char.ofNat 13

/-- A `\w` word character: alphanumeric or underscore. -/
def isWordChar (c : Char) : Bool :=
  c.isAlphanum || c == '_'

/-- A character the `/[\s_-]+/` separator class matches: whitespace,
underscore or hyphen. -/
def isSlugSep (c : Char) : Bool :=
  isJsWhitespace c || c == '_' || c == Char.ofNat 45

/-- JavaScript `String.prototype.trim`: drop whitespace at both ends. -/
def jsTrimChars (l : List Char) : List Char :=
  ((l.dropWhile isJsWhitespace).reverse.dropWhile isJsWhitespace).reverse

/-- Worker for `collapseSeps`: `prevSep` records whether the previous
character belonged to a separator run (whose hyphen is already emitted). -/
def collapseSepsGo : Bool → List Char → List Char
  | _, [] => []
  | prevSep, c :: rest =>
      if isSlugSep c then
        if prevSep then collapseSepsGo true rest
        else Char.ofNat 45 :: collapseSepsGo true rest
      else c :: collapseSepsGo false rest

/-- The `.replace(/[\s_-]+/g, "-")` step of `generateSlug`: every
maximal run of whitespace/underscore/hyphen becomes one hyphen. -/
def collapseSeps (l : List Char) : List Char :=
  collapseSepsGo false l

/-- The `.replace(/^-+|-+$/g, "")` step: drop hyphens at both ends. -/
def trimHyphens (l : List Char) : List Char :=
  ((l.dropWhile (· == Char.ofNat 45)).reverse.dropWhile
    (· == Char.ofNat 45)).reverse

/-- The function `generateSlug` of `src/lib/video-utils.ts` (staged as
the fourth chunk of `src/docs/QUICK_REFERENCE.md`): lowercase, `trim()`,
`.replace(/[^\w\s-]/g, "")` (keep word characters, whitespace and
hyphens), `.replace(/[\s_-]+/g, "-")` (collapse separator runs to one
hyphen), `.replace(/^-+|-+$/g, "")` (strip edge hyphens). -/
def generateSlug (title : String) : String :=
  let lowered := title.toList.map Char.toLower
  let cleaned := (jsTrimChars lowered).filter (fun c =>
    isWordChar c || isJsWhitespace c || c == Char.ofNat 45)
  String.mk (trimHyphens (collapseSeps cleaned))

/-- Acceptor for the regex `^[a-z0-9]+(?:-[a-z0-9]+)*$` of `isValidSlug`:
`needAlnum` records whether the position must start a new
`[a-z0-9]+` group (at the start and right after a hyphen). -/
def slugRegexAccept : List Char → Bool → Bool
  | [], needAlnum => !needAlnum
  | c :: rest, needAlnum =>
      if isLowerAlnum c then slugRegexAccept rest false
      else if c == Char.ofNat 45 then
        !needAlnum && slugRegexAccept rest true
      else false

/-- The function `isValidSlug` of `src/lib/video-utils.ts` (staged as
the fourth chunk of `src/docs/QUICK_REFERENCE.md`): the slug matches
`^[a-z0-9]+(?:-[a-z0-9]+)*$` and its length lies in `[3, 50]`. -/
def isValidSlug (s : String) : Bool :=
  slugRegexAccept s.toList true &&
  decide (3 ≤ s.length) && decide (s.length ≤ 50)

/-- Case-insensitive `contains` (Prisma `mode: "insensitive"`). -/
def containsInsensitive (s sub : String) : Bool :=
  jsIncludes (String.mk (s.toList.map Char.toLower))
    (String.mk (sub.toList.map Char.toLower))

/-- The `where` clause of `GET /api/workspaces/[id]/posts`: workspace
filter, soft-delete filter, optional search `OR` over
title/content/excerpt, optional `isPublished` filter. `search` models the
query string value (the code treats the empty string as "no search");
`published` models the optional `published` query parameter. -/
def postListWhere (workspaceId : Nat) (search : String)
    (published : Option Bool) (p : Post) : Bool :=
  p.workspaceId == workspaceId && p.deletedAt == none &&
  (search == "" ||
    (containsInsensitive p.title search ||
     containsInsensitive p.content search ||
     containsInsensitive p.excerpt search)) &&
  (match published with
   | none => true
   | some b => p.isPublished == b)

/-- The error-to-status mapping shared by the posts, affiliate-links and
categories routes: a thrown message containing `"Access denied"` maps to
403, anything else to 500 (`Internal server error`). -/
def errorStatus (msg : String) : Nat :=
  if jsIncludes msg "Access denied" then 403 else 500

/-- Route `GET /api/workspaces/[id]/posts`: membership check, then a filtered,
`createdAt`-descending, paginated read of the workspace's posts.
Returns the HTTP status and, on success, the page of posts. -/
def getPostsRoute (db : DB) (userId workspaceId : Nat)
    (page limit : Nat) (search : String) (published : Option Bool) :
    Nat × Option (List Post) :=
  match verifyWorkspaceMember db workspaceId userId with
  | .error e => (errorStatus e, none)
  | .ok _ =>
      let filtered := db.posts.filter (postListWhere workspaceId search published)
      let sorted := sortDesc (fun p => p.createdAt) filtered
      (200, some ((sorted.drop ((page - 1) * limit)).take limit))

/-- Route `GET /api/workspaces/[id]/affiliate-links`: membership check, then
all the workspace's links ordered by `createdAt` descending, each paired
with its computed `isActive` flag
(`link.product.activeAffiliateLinkId === link.id`). The mock
click/conversion counts the source attaches are random values independent
of the store and are not part of the model. -/
def getAffiliateLinksRoute (db : DB) (userId workspaceId : Nat) :
    Nat × Option (List (AffiliateLink × Bool)) :=
  match verifyWorkspaceMember db workspaceId userId with
  | .error e => (errorStatus e, none)
  | .ok _ =>
      let links := sortDesc (fun l => l.createdAt)
        (db.affiliateLinks.filter (fun l => l.workspaceId == workspaceId))
      (200, some (links.map (fun l =>
        (l, match db.products.find? (fun pr => pr.id == l.productId) with
            | some pr => pr.activeAffiliateLinkId == some l.id
            | none => false))))

/-- The helper `verifyPostAccess` of the single-post routes: membership lookup
(throwing `"Access denied to workspace"`), then a lookup of the
non-deleted post within the workspace (throwing
`"Post not found or access denied"`). -/
def verifyPostAccess (db : DB) (workspaceId postId userId : Nat) :
    Except String (Membership × Post) :=
  match db.memberships.find? (fun m =>
      m.workspaceId == workspaceId && m.userId == userId) with
  | none => .error "Access denied to workspace"
  | some uw =>
      match db.posts.find? (fun p =>
          p.id == postId && p.workspaceId == workspaceId &&
          p.deletedAt == none) with
      | none => .error "Post not found or access denied"
      | some p => .ok (uw, p)

/-- Route `GET /api/workspaces/[id]/posts/[postId]`: `verifyPostAccess`, then
the same post lookup again (404 when it finds nothing), with thrown
errors mapped through `errorStatus`. -/
def getPostRoute (db : DB) (userId workspaceId postId : Nat) :
    Nat × Option Post :=
  match verifyPostAccess db workspaceId postId userId with
  | .error e => (errorStatus e, none)
  | .ok _ =>
      match db.posts.find? (fun p =>
          p.id == postId && p.workspaceId == workspaceId &&
          p.deletedAt == none) with
      | none => (404, none)
      | some p => (200, some p)

/-- Route `DELETE /api/workspaces/[id]/posts/[postId]`: `verifyPostAccess`,
then `update where { id: postId } data { deletedAt: now }` (a soft
delete). Returns the status and the next store state. -/
def deletePostRoute (db : DB) (userId workspaceId postId now : Nat) :
    Nat × DB :=
  match verifyPostAccess db workspaceId postId userId with
  | .error e => (errorStatus e, db)
  | .ok _ =>
      (200, { db with posts := db.posts.map (fun p =>
        if p.id == postId then { p with deletedAt := some now } else p) })

/-- Modelled from the spec: the explicit "include deleted" read of a
workspace's posts (no route under the source tree exposes one; the spec's
global invariant speaks of "explicitly requesting the deleted set"). It
is the same workspace-scoped query without the `deletedAt` exclusion. -/
def listPostsIncludeDeleted (db : DB) (workspaceId : Nat) : List Post :=
  db.posts.filter (fun p => p.workspaceId == workspaceId)

/-- The desired slug of a post create: the supplied one, else
`generateSlug title`. -/
def desiredPostSlug (title : String) (slugOpt : Option String) : String :=
  match slugOpt with
  | some s => s
  | none => generateSlug title

/-- The desired slug of a workspace create: the supplied one, else
`generateSlug name`, falling back to `generateSlug name` when the
supplied slug is invalid. -/
def desiredWorkspaceSlug (name : String) (slugOpt : Option String) : String :=
  let slug0 := match slugOpt with
    | some s => s
    | none => generateSlug name
  if isValidSlug slug0 then slug0 else generateSlug name

/-- Route `POST /api/workspaces/[id]/posts`: membership check; desired slug is
the supplied one or `generateSlug title`; if a non-deleted post of the
workspace already holds that slug, append `-` and a random suffix; then a
transaction creates the post and, when `productIds` is supplied and
nonempty, verifies by counting that every id matches a product of the
workspace (throwing otherwise) and inserts the associations. Returns the
status, the stored slug on success, and the next store state (unchanged
on failure). `newId`/`now` model the generated id and timestamp; `digits`
models the random draw (see `randomSuffix`). -/
def createPostRoute (db : DB) (userId workspaceId : Nat) (title : String)
    (slugOpt : Option String) (productIds : Option (List Nat))
    (digits : List Nat) (newId now : Nat) :
    Nat × Option String × DB :=
  match verifyWorkspaceMember db workspaceId userId with
  | .error e => (errorStatus e, none, db)
  | .ok _ =>
      let slug0 := desiredPostSlug title slugOpt
      let slug :=
        if (db.posts.find? (fun p =>
            p.workspaceId == workspaceId && p.slug == slug0 &&
            p.deletedAt == none)).isSome then
          slug0 ++ "-" ++ randomSuffix digits
        else slug0
      let txn : Except String DB :=
        let post : Post :=
          { id := newId, workspaceId := workspaceId, slug := slug,
            title := title, content := "", excerpt := "",
            isPublished := false, createdAt := now, deletedAt := none }
        let db1 := { db with posts := db.posts ++ [post] }
        match productIds with
        | some ids =>
            if ids.length > 0 then
              let products := db.products.filter (fun pr =>
                ids.contains pr.id && pr.workspaceId == workspaceId)
              if products.length != ids.length then
                .error "Some products not found or access denied"
              else
                let newAssocs : List PostProduct := ids.map
                  (fun productId => { postId := newId, productId := productId })
                .ok { db1 with postProducts := db1.postProducts ++ newAssocs }
            else .ok db1
        | none => .ok db1
      match txn with
      | .error e => (errorStatus e, none, db)
      | .ok db' => (200, some slug, db')

/-- Route `POST /api/workspaces`: desired slug is the supplied one or
`generateSlug name`, replaced by `generateSlug name` when invalid; if any
workspace (deleted or not — `findUnique` has no `deletedAt` filter)
already holds that slug, append `-` and a random suffix; then create the
workspace with the caller as `OWNER`. Returns the status, the stored
slug, and the next store state. -/
def createWorkspaceRoute (db : DB) (userId : Nat) (name : String)
    (slugOpt : Option String) (digits : List Nat) (newId now : Nat) :
    Nat × Option String × DB :=
  let slug1 := desiredWorkspaceSlug name slugOpt
  let slug :=
    if (db.workspaces.find? (fun w => w.slug == slug1)).isSome then
      slug1 ++ "-" ++ randomSuffix digits
    else slug1
  let workspace : Workspace :=
    { id := newId, slug := slug, createdAt := now, updatedAt := now,
      deletedAt := none }
  (200, some slug,
    { db with
      workspaces := db.workspaces ++ [workspace],
      memberships := db.memberships ++
        [{ userId := userId, workspaceId := newId, role := .OWNER }] })

/-- The optional scalar updates of `PUT .../posts/[postId]` that the
model's `Post` carries. -/
structure PostUpdate where
  title : Option String
  slug : Option String
  content : Option String
  isPublished : Option Bool
  deriving Repr

/-- Apply the scalar part of a post update (Prisma
`update where { id } data { ...postData }`). -/
def applyPostUpdate (u : PostUpdate) (slug : Option String) (p : Post) : Post :=
  { p with
    title := u.title.getD p.title,
    content := u.content.getD p.content,
    isPublished := u.isPublished.getD p.isPublished,
    slug := slug.getD p.slug }

/-- Route `PUT /api/workspaces/[id]/posts/[postId]`: `verifyPostAccess`; if the
title changes without an explicit slug, regenerate the slug; re-run the
uniqueness check excluding the post's own id, suffixing on collision;
then one transaction updates the post and, when `productIds` is supplied,
deletes all existing associations and, for a nonempty id set, verifies by
counting that every id matches a product of the workspace (throwing —
and rolling the whole transaction back — otherwise) before inserting the
new associations. Returns the status and the next store state (unchanged
on failure). -/
def putPostRoute (db : DB) (userId workspaceId postId : Nat)
    (u : PostUpdate) (productIds : Option (List Nat))
    (digits : List Nat) : Nat × DB :=
  match verifyPostAccess db workspaceId postId userId with
  | .error e => (errorStatus e, db)
  | .ok _ =>
      let slugA : Option String :=
        match u.title, u.slug with
        | some t, none => some (generateSlug t)
        | _, _ => u.slug
      let slugB : Option String :=
        match slugA with
        | none => none
        | some s =>
            if (db.posts.find? (fun p =>
                p.workspaceId == workspaceId && p.slug == s &&
                p.deletedAt == none && !(p.id == postId))).isSome then
              some (s ++ "-" ++ randomSuffix digits)
            else some s
      let txn : Except String DB :=
        let db1 := { db with posts := db.posts.map (fun p =>
          if p.id == postId then applyPostUpdate u slugB p else p) }
        match productIds with
        | some ids =>
            let db2 := { db1 with postProducts :=
              db1.postProducts.filter (fun pp => !(pp.postId == postId)) }
            if ids.length > 0 then
              let products := db.products.filter (fun pr =>
                ids.contains pr.id && pr.workspaceId == workspaceId)
              if products.length != ids.length then
                .error "Some products not found or access denied"
              else
                let newAssocs : List PostProduct := ids.map
                  (fun productId => { postId := postId, productId := productId })
                .ok { db2 with postProducts := db2.postProducts ++ newAssocs }
            else .ok db2
        | none => .ok db1
      match txn with
      | .error e => (errorStatus e, db)
      | .ok db' => (200, db')

/-- The helper `verifyCategoryAccess` of the category routes: membership lookup
(throwing `"Access denied to workspace"`), then a lookup of the category
within the workspace (throwing `"Category not found or access denied"`). -/
def verifyCategoryAccess (db : DB) (workspaceId categoryId userId : Nat) :
    Except String (Membership × Category) :=
  match db.memberships.find? (fun m =>
      m.workspaceId == workspaceId && m.userId == userId) with
  | none => .error "Access denied to workspace"
  | some uw =>
      match db.categories.find? (fun c =>
          c.id == categoryId && c.workspaceId == workspaceId) with
      | none => .error "Category not found or access denied"
      | some c => .ok (uw, c)

/-- Route `DELETE /api/workspaces/[id]/categories/[categoryId]`:
`verifyCategoryAccess`, then count the products referencing the category;
a positive count is rejected with status 400 and error
`"Cannot delete category"` (the conflict rejection), leaving the store
unchanged; otherwise the category row is hard-deleted. Returns the
status, the error string if any, and the next store state. -/
def deleteCategoryRoute (db : DB) (userId workspaceId categoryId : Nat) :
    Nat × Option String × DB :=
  match verifyCategoryAccess db workspaceId categoryId userId with
  | .error e => (errorStatus e, some e, db)
  | .ok _ =>
      let productCount :=
        (db.products.filter (fun pr => pr.categoryId == some categoryId)).length
      if productCount > 0 then
        (400, some "Cannot delete category", db)
      else
        (200, none, { db with categories :=
          db.categories.filter (fun c => !(c.id == categoryId)) })

/-- Outcome of the internal `fetch` of `/api/workspaces` performed by the
middleware: a thrown exception, a non-OK response, or an OK response
carrying the workspace list. -/
inductive FetchResult where
  | failure
  | notOk
  | ok (workspaces : List Workspace)
  deriving DecidableEq, Repr

/-- Result of the middleware: a redirect, or continuing the request to
its originally requested destination (`NextResponse.next()`). -/
inductive MwResult where
  | redirect (url : String)
  | next
  deriving DecidableEq, Repr

/-- Route `GET /api/workspaces`: the caller's non-deleted workspaces, ordered
by `createdAt` descending. -/
def getWorkspacesApi (db : DB) (userId : Nat) : List Workspace :=
  sortDesc (fun w => w.createdAt)
    (db.workspaces.filter (fun w =>
      (db.memberships.any (fun m =>
        m.userId == userId && m.workspaceId == w.id)) &&
      w.deletedAt == none))

/-- The function `middleware` of `src/middleware.ts`: public-route and auth-page
branches; on `/dashboard` with a session, the workspace lookup — a
failing or non-OK lookup falls through, an OK nonempty list redirects to
the slug matching the (truthy) `affiflow_last_workspace` cookie if found,
else to `workspaces[0]`; an empty list stays for onboarding; then the
admin-role gate; else `NextResponse.next()`. -/
def middleware (hasSession : Bool) (role : String) (pathname : String)
    (cookie : Option String) (fetched : FetchResult) : MwResult :=
  let publicRoutes : List String := ["/", "/auth/signin", "/auth/signup"]
  let isPublicRoute := publicRoutes.contains pathname
  if !hasSession && !isPublicRoute then
    .redirect "/auth/signin"
  else if hasSession && (pathname == "/auth/signin" || pathname == "/auth/signup") then
    .redirect "/dashboard"
  else
    let dashboardRedirect : Option MwResult :=
      if hasSession && pathname == "/dashboard" then
        match fetched with
        | .ok workspaces =>
            match workspaces with
            | [] => none
            | w0 :: _ =>
                let target : Workspace := match cookie with
                  | some c =>
                      if c == "" then w0
                      else (workspaces.find? (fun w => w.slug == c)).getD w0
                  | none => w0
                some (.redirect ("/" ++ target.slug ++ "/dashboard"))
        | .failure => none
        | .notOk => none
      else none
    match dashboardRedirect with
    | some r => r
    | none =>
        if hasSession && jsStartsWith pathname "/admin" &&
            !(role == "ADMIN" || role == "SUPER_ADMIN") then
          .redirect "/dashboard"
        else
          .next

/-- Following the spec's words (for comparison with the code's
selection): "the most-recently-updated" workspace of a list — the one
with the maximal `updatedAt`, the earlier of two ties. -/
def mostRecentlyUpdated : List Workspace → Option Workspace
  | [] => none
  | w :: ws =>
      match mostRecentlyUpdated ws with
      | none => some w
      | some v => some (if v.updatedAt > w.updatedAt then v else w)

/-! ## Helper lemmas -/

/-- Both branches of the error-to-status mapping are failures. -/
theorem errorStatus_ne_200 (msg : String) : errorStatus msg ≠ 200 := by
  unfold errorStatus
  split <;> decide

/-- Sample data shared by the concrete witnesses below. -/
def sampleMember : Membership :=
  { userId := 1, workspaceId := 1, role := .MEMBER }

def sampleAdmin : Membership :=
  { userId := 2, workspaceId := 1, role := .ADMIN }

def sampleWorkspace : Workspace :=
  { id := 1, slug := "acme", createdAt := 1, updatedAt := 1, deletedAt := none }

def samplePost : Post :=
  { id := 5, workspaceId := 1, slug := "hello", title := "hello",
    content := "", excerpt := "", isPublished := false, createdAt := 3,
    deletedAt := none }

def sampleProduct : Product :=
  { id := 11, workspaceId := 1, categoryId := some 3,
    activeAffiliateLinkId := none }

def sampleCategory : Category :=
  { id := 3, workspaceId := 1, name := "gear" }

def sampleDB : DB :=
  { memberships := [sampleMember, sampleAdmin],
    workspaces := [sampleWorkspace],
    posts := [samplePost],
    products := [sampleProduct],
    categories := [sampleCategory],
    affiliateLinks := [],
    postProducts := [] }

/-! ## C1: the workspace authorization check -/

/-- C1: `verifyWorkspaceAccess` denies (`"Workspace not found or access
denied"`) whenever no membership exists for the `(user, workspace)` pair,
denies (`"Insufficient permissions"`) whenever the membership's rank
under `{MEMBER: 0, ADMIN: 1, OWNER: 2}` is strictly below the required
role's rank, and otherwise allows and returns the membership record —
for every store state and input triple (assuming the store's invariant
that at most one membership exists per pair). -/
theorem verifyWorkspaceAccess_authorizes (db : DB)
    (workspaceId userId : Nat) (requiredRole : Role)
    (huniq : ∀ m1 ∈ db.memberships, ∀ m2 ∈ db.memberships,
      m1.workspaceId = workspaceId → m1.userId = userId →
      m2.workspaceId = workspaceId → m2.userId = userId → m1 = m2) :
    ((∀ m ∈ db.memberships,
        ¬(m.workspaceId = workspaceId ∧ m.userId = userId)) →
      verifyWorkspaceAccess db workspaceId userId requiredRole =
        .error "Workspace not found or access denied") ∧
    (∀ m ∈ db.memberships, m.workspaceId = workspaceId → m.userId = userId →
      roleHierarchy m.role < roleHierarchy requiredRole →
      verifyWorkspaceAccess db workspaceId userId requiredRole =
        .error "Insufficient permissions") ∧
    (∀ m ∈ db.memberships, m.workspaceId = workspaceId → m.userId = userId →
      roleHierarchy requiredRole ≤ roleHierarchy m.role →
      verifyWorkspaceAccess db workspaceId userId requiredRole = .ok m) := by
  have hfind : ∀ m,
      db.memberships.find? (fun x =>
        x.workspaceId == workspaceId && x.userId == userId) = some m →
      m ∈ db.memberships ∧ m.workspaceId = workspaceId ∧ m.userId = userId := by
    intro m hm
    have hmem := List.mem_of_find?_eq_some hm
    have hp := List.find?_some hm
    simp only [Bool.and_eq_true, beq_iff_eq] at hp
    exact ⟨hmem, hp.1, hp.2⟩
  refine ⟨?_, ?_, ?_⟩
  · intro habs
    unfold verifyWorkspaceAccess
    have : db.memberships.find? (fun x =>
        x.workspaceId == workspaceId && x.userId == userId) = none := by
      rw [List.find?_eq_none]
      intro x hx
      simp only [Bool.and_eq_true, beq_iff_eq, not_and]
      intro h1 h2
      exact habs x hx ⟨h1, h2⟩
    rw [this]
  · intro m hm h1 h2 hlt
    unfold verifyWorkspaceAccess
    obtain ⟨m', hm'⟩ : ∃ m', db.memberships.find? (fun x =>
        x.workspaceId == workspaceId && x.userId == userId) = some m' := by
      cases hfound : db.memberships.find? (fun x =>
          x.workspaceId == workspaceId && x.userId == userId) with
      | none =>
          rw [List.find?_eq_none] at hfound
          exact absurd (by simp [h1, h2]) (hfound m hm)
      | some m' => exact ⟨m', rfl⟩
    obtain ⟨hmem', hw', hu'⟩ := hfind m' hm'
    have : m' = m := huniq m' hmem' m hm hw' hu' h1 h2
    subst this
    rw [hm']
    simp [hlt]
  · intro m hm h1 h2 hle
    unfold verifyWorkspaceAccess
    obtain ⟨m', hm'⟩ : ∃ m', db.memberships.find? (fun x =>
        x.workspaceId == workspaceId && x.userId == userId) = some m' := by
      cases hfound : db.memberships.find? (fun x =>
          x.workspaceId == workspaceId && x.userId == userId) with
      | none =>
          rw [List.find?_eq_none] at hfound
          exact absurd (by simp [h1, h2]) (hfound m hm)
      | some m' => exact ⟨m', rfl⟩
    obtain ⟨hmem', hw', hu'⟩ := hfind m' hm'
    have : m' = m := huniq m' hmem' m hm hw' hu' h1 h2
    subst this
    rw [hm']
    simp [Nat.not_lt.mpr hle]

/-- C1 witness: at the sample store, a stranger (user 9) is denied for
lack of membership, the plain member is denied `OWNER`-level access, and
the admin is allowed `ADMIN`-level access and handed back exactly their
membership row. -/
theorem verifyWorkspaceAccess_authorizes_witness :
    verifyWorkspaceAccess sampleDB 1 9 .MEMBER =
      .error "Workspace not found or access denied" ∧
    verifyWorkspaceAccess sampleDB 1 1 .OWNER =
      .error "Insufficient permissions" ∧
    verifyWorkspaceAccess sampleDB 1 2 .ADMIN = .ok sampleAdmin := by
  refine ⟨?_, ?_, ?_⟩
  · exact (verifyWorkspaceAccess_authorizes sampleDB 1 9 .MEMBER
      (by decide)).1 (by decide)
  · exact (verifyWorkspaceAccess_authorizes sampleDB 1 1 .OWNER
      (by decide)).2.1 sampleMember (by decide) rfl rfl (by decide)
  · exact (verifyWorkspaceAccess_authorizes sampleDB 1 2 .ADMIN
      (by decide)).2.2 sampleAdmin (by decide) rfl rfl (by decide)

/-! ## C2: workspace-scoped reads never leak another tenant's rows -/

/-- C2: every list/read operation scoped to workspace `A` — listing
posts, listing affiliate links, reading a single post — returns only
rows whose `workspaceId` is `A` and hence never a row of a distinct
workspace `B`, whatever memberships the caller holds. -/
theorem reads_are_workspace_scoped (db : DB) (A B userId page limit postId : Nat)
    (search : String) (published : Option Bool) (hAB : A ≠ B) :
    (∀ posts, (getPostsRoute db userId A page limit search published).2 = some posts →
      ∀ p ∈ posts, p.workspaceId = A ∧ p.workspaceId ≠ B) ∧
    (∀ entries, (getAffiliateLinksRoute db userId A).2 = some entries →
      ∀ e ∈ entries, e.1.workspaceId = A ∧ e.1.workspaceId ≠ B) ∧
    (∀ p, (getPostRoute db userId A postId).2 = some p →
      p.workspaceId = A ∧ p.workspaceId ≠ B) := by
  refine ⟨?_, ?_, ?_⟩
  · intro posts hposts p hp
    unfold getPostsRoute at hposts
    cases hv : verifyWorkspaceMember db A userId with
    | error e => rw [hv] at hposts; simp at hposts
    | ok uw =>
        rw [hv] at hposts
        simp only [Option.some.injEq] at hposts
        subst hposts
        have h1 := List.mem_of_mem_take hp
        have h2 := List.mem_of_mem_drop h1
        have h3 := (mem_sortDesc (fun p => p.createdAt) p _).mp h2
        have h4 := List.of_mem_filter h3
        unfold postListWhere at h4
        simp only [Bool.and_eq_true, beq_iff_eq] at h4
        exact ⟨h4.1.1.1, h4.1.1.1 ▸ hAB⟩
  · intro entries hentries e he
    unfold getAffiliateLinksRoute at hentries
    cases hv : verifyWorkspaceMember db A userId with
    | error e' => rw [hv] at hentries; simp at hentries
    | ok uw =>
        rw [hv] at hentries
        simp only [Option.some.injEq] at hentries
        subst hentries
        obtain ⟨l, hl, hle⟩ := List.mem_map.mp he
        have h3 := (mem_sortDesc (fun l => l.createdAt) l _).mp hl
        have h4 := List.of_mem_filter h3
        simp only [beq_iff_eq] at h4
        have : e.1 = l := by rw [← hle]
        rw [this, h4]
        exact ⟨rfl, hAB⟩
  · intro p hp
    unfold getPostRoute at hp
    cases hv : verifyPostAccess db A postId userId with
    | error e => rw [hv] at hp; simp at hp
    | ok pr =>
        rw [hv] at hp
        cases hf : db.posts.find? (fun q =>
            q.id == postId && q.workspaceId == A && q.deletedAt == none) with
        | none => rw [hf] at hp; simp at hp
        | some q =>
            rw [hf] at hp
            simp only [Option.some.injEq] at hp
            subst hp
            have := List.find?_some hf
            simp only [Bool.and_eq_true, beq_iff_eq] at this
            exact ⟨this.1.2, this.1.2 ▸ hAB⟩

/-- C2 witness: at the sample store (workspaces 1 ≠ 2), the post list of
workspace 1 is exactly `[samplePost]`, and the theorem instantiated
there certifies that row belongs to workspace 1, not 2. -/
theorem reads_are_workspace_scoped_witness :
    (getPostsRoute sampleDB 1 1 1 20 "" none).2 = some [samplePost] ∧
    samplePost.workspaceId = 1 ∧ samplePost.workspaceId ≠ 2 :=
  ⟨by decide,
    (reads_are_workspace_scoped sampleDB 1 2 1 1 20 5 "" none
      (by decide)).1 [samplePost] (by decide) samplePost (by decide)⟩

/-! ## C3: slug collision never rejects; the suffixed pattern -/

/-- The pattern `^<base>-[a-z0-9]{6}$` of the claim: `slug` is `base`,
a hyphen, then exactly six lowercase-alphanumeric characters. -/
def suffixPattern6 (base slug : String) : Bool :=
  startsWithChars slug.toList (base ++ "-").toList &&
  (slug.toList.drop (base.toList.length + 1)).length == 6 &&
  (slug.toList.drop (base.toList.length + 1)).all isLowerAlnum

/-- A digit below 36 prints as a lowercase-alphanumeric character. -/
theorem isLowerAlnum_base36Char (d : Nat) (h : d < 36) :
    isLowerAlnum (base36Char d) = true := by
  interval_cases d <;> decide

/-- Every character of `randomSuffix` is lowercase-alphanumeric, for any
draw whose digits are genuine base-36 digits. -/
theorem randomSuffix_all_lowerAlnum (digits : List Nat)
    (h36 : ∀ d ∈ digits, d < 36) :
    (randomSuffix digits).toList.all isLowerAlnum = true := by
  rw [List.all_eq_true]
  intro c hc
  obtain ⟨d, hd, hdc⟩ := List.mem_map.mp hc
  rw [← hdc]
  exact isLowerAlnum_base36Char d (h36 d (List.mem_of_mem_take hd))

/-- The suffix `randomSuffix` never exceeds six characters. -/
theorem randomSuffix_length_le (digits : List Nat) :
    (randomSuffix digits).length ≤ 6 := by
  show ((digits.take 6).map base36Char).length ≤ 6
  rw [List.length_map, List.length_take]
  exact Nat.min_le_left _ _

/-- A slug never equals itself extended by a hyphen and a suffix. -/
theorem base_ne_suffixed (base s : String) : base ≠ base ++ "-" ++ s := by
  intro h
  have := congrArg String.length h
  rw [String.length_append, String.length_append] at this
  have hone : ("-" : String).length = 1 := rfl
  omega

/-- C3 counterexample: the claim's `^<base>-[a-z0-9]{6}$` pattern fails
on the code. At the sample store, whose workspace 1 already holds a post
with slug `"hello"`, a member creates a second post titled `"hello"`;
the random draw is `Math.random() = 0.5`, which JavaScript prints in
base 36 as `"0.i"`, so `substring(2, 8)` is the single character `"i"`.
The create succeeds and stores `"hello-i"`: a one-character suffix, not
a six-character one. -/
theorem slug_suffix_six_counterexample :
    samplePost ∈ sampleDB.posts ∧ samplePost.slug = "hello" ∧
    desiredPostSlug "hello" none = "hello" ∧
    (createPostRoute sampleDB 1 1 "hello" none none [18] 9 4).1 = 200 ∧
    (createPostRoute sampleDB 1 1 "hello" none none [18] 9 4).2.1 =
      some "hello-i" ∧
    (18 : Nat) < 36 ∧
    suffixPattern6 "hello" "hello-i" = false := by
  decide

/-- C3 (amended): colliding creates are never rejected and store
distinct slugs; the second stored slug is the base followed by a hyphen
and a suffix of *at most* six lowercase-alphanumeric characters
(`substring(2, 8)` of the printed base-36 expansion can run out of
digits before six). Stated for both a post create whose desired slug
collides within the workspace and a workspace create whose desired slug
collides globally. -/
theorem slug_collision_disambiguates (db : DB) (userId ws : Nat)
    (title : String) (slugOpt : Option String) (digits : List Nat)
    (newId now : Nat) (uw : Membership) (q : Post)
    (name : String) (wslugOpt : Option String) (wdigits : List Nat)
    (wnewId wnow : Nat) (w : Workspace)
    (h36 : ∀ d ∈ digits, d < 36)
    (hmem : verifyWorkspaceMember db ws userId = .ok uw)
    (hcol : db.posts.find? (fun p => p.workspaceId == ws &&
      p.slug == desiredPostSlug title slugOpt && p.deletedAt == none) = some q)
    (hw36 : ∀ d ∈ wdigits, d < 36)
    (hwcol : db.workspaces.find? (fun v =>
      v.slug == desiredWorkspaceSlug name wslugOpt) = some w) :
    ((createPostRoute db userId ws title slugOpt none digits newId now).1 = 200 ∧
     (createPostRoute db userId ws title slugOpt none digits newId now).2.1 =
       some (desiredPostSlug title slugOpt ++ "-" ++ randomSuffix digits) ∧
     desiredPostSlug title slugOpt ++ "-" ++ randomSuffix digits ≠ q.slug ∧
     (randomSuffix digits).length ≤ 6 ∧
     (randomSuffix digits).toList.all isLowerAlnum = true) ∧
    ((createWorkspaceRoute db userId name wslugOpt wdigits wnewId wnow).1 = 200 ∧
     (createWorkspaceRoute db userId name wslugOpt wdigits wnewId wnow).2.1 =
       some (desiredWorkspaceSlug name wslugOpt ++ "-" ++ randomSuffix wdigits) ∧
     desiredWorkspaceSlug name wslugOpt ++ "-" ++ randomSuffix wdigits ≠ w.slug ∧
     (randomSuffix wdigits).length ≤ 6 ∧
     (randomSuffix wdigits).toList.all isLowerAlnum = true) := by
  have hq := List.find?_some hcol
  simp only [Bool.and_eq_true, beq_iff_eq] at hq
  have hwq := List.find?_some hwcol
  simp only [beq_iff_eq] at hwq
  constructor
  · refine ⟨?_, ?_, ?_, randomSuffix_length_le digits,
      randomSuffix_all_lowerAlnum digits h36⟩
    · simp only [createPostRoute, hmem, hcol, Option.isSome_some, if_true]
    · simp only [createPostRoute, hmem, hcol, Option.isSome_some, if_true]
    · rw [hq.1.2]
      exact (base_ne_suffixed _ _).symm
  · refine ⟨?_, ?_, ?_, randomSuffix_length_le wdigits,
      randomSuffix_all_lowerAlnum wdigits hw36⟩
    · simp only [createWorkspaceRoute, hwcol, Option.isSome_some, if_true]
    · simp only [createWorkspaceRoute, hwcol, Option.isSome_some, if_true]
    · rw [hwq]
      exact (base_ne_suffixed _ _).symm

/-- C3 witness: at the sample store, a post create titled `"hello"`
(colliding with the stored `"hello"`) with draw digits `10..15` and a
workspace create named `"acme"` (colliding with the stored `"acme"`)
with draw digits `0..5` both succeed with distinct, suffixed slugs. -/
theorem slug_collision_disambiguates_witness :
    ((createPostRoute sampleDB 1 1 "hello" none none [10, 11, 12, 13, 14, 15] 9 4).1 = 200 ∧
     (createPostRoute sampleDB 1 1 "hello" none none [10, 11, 12, 13, 14, 15] 9 4).2.1 =
       some (desiredPostSlug "hello" none ++ "-" ++ randomSuffix [10, 11, 12, 13, 14, 15]) ∧
     desiredPostSlug "hello" none ++ "-" ++ randomSuffix [10, 11, 12, 13, 14, 15] ≠
       samplePost.slug ∧
     (randomSuffix [10, 11, 12, 13, 14, 15]).length ≤ 6 ∧
     (randomSuffix [10, 11, 12, 13, 14, 15]).toList.all isLowerAlnum = true) ∧
    ((createWorkspaceRoute sampleDB 1 "acme" none [0, 1, 2, 3, 4, 5] 7 8).1 = 200 ∧
     (createWorkspaceRoute sampleDB 1 "acme" none [0, 1, 2, 3, 4, 5] 7 8).2.1 =
       some (desiredWorkspaceSlug "acme" none ++ "-" ++ randomSuffix [0, 1, 2, 3, 4, 5]) ∧
     desiredWorkspaceSlug "acme" none ++ "-" ++ randomSuffix [0, 1, 2, 3, 4, 5] ≠
       sampleWorkspace.slug ∧
     (randomSuffix [0, 1, 2, 3, 4, 5]).length ≤ 6 ∧
     (randomSuffix [0, 1, 2, 3, 4, 5]).toList.all isLowerAlnum = true) :=
  slug_collision_disambiguates sampleDB 1 1 "hello" none [10, 11, 12, 13, 14, 15]
    9 4 sampleMember samplePost "acme" none [0, 1, 2, 3, 4, 5] 7 8 sampleWorkspace
    (by decide) (by rfl) (by rfl) (by decide) (by rfl)

/-! ## C4: foreign product ids abort the whole association replacement -/

/-- When some requested id matches no product of the workspace (and
product ids are unique, the store's primary-key invariant), the matched
row count falls strictly short of the requested id count. -/
theorem filter_products_length_lt (products : List Product)
    (ids : List Nat) (ws i : Nat)
    (hnodup : (products.map (fun pr => pr.id)).Nodup)
    (hi : i ∈ ids)
    (hforeign : ∀ pr ∈ products, ¬(pr.id = i ∧ pr.workspaceId = ws)) :
    (products.filter (fun pr =>
      ids.contains pr.id && pr.workspaceId == ws)).length < ids.length := by
  set found := products.filter (fun pr =>
    ids.contains pr.id && pr.workspaceId == ws) with hfound
  have hsub : List.Sublist found products := List.filter_sublist _
  have hnodup' : (found.map (fun pr => pr.id)).Nodup :=
    List.Nodup.sublist (List.Sublist.map _ hsub) hnodup
  have hsubset : ∀ x ∈ found.map (fun pr => pr.id), x ∈ ids ∧ x ≠ i := by
    intro x hx
    obtain ⟨pr, hpr, rfl⟩ := List.mem_map.mp hx
    have hmemp := List.mem_of_mem_filter hpr
    have hp := List.of_mem_filter hpr
    simp only [Bool.and_eq_true, beq_iff_eq] at hp
    refine ⟨List.mem_of_elem_eq_true hp.1, fun hide =>
      hforeign pr hmemp ⟨hide, hp.2⟩⟩
  have hcard1 : (found.map (fun pr => pr.id)).toFinset.card = found.length := by
    rw [List.toFinset_card_of_nodup hnodup', List.length_map]
  have hsub2 : (found.map (fun pr => pr.id)).toFinset ⊆ ids.toFinset.erase i := by
    intro x hx
    rw [List.mem_toFinset] at hx
    obtain ⟨hxids, hxne⟩ := hsubset x hx
    exact Finset.mem_erase.mpr ⟨hxne, List.mem_toFinset.mpr hxids⟩
  have h3 := Finset.card_le_card hsub2
  have h4 : (ids.toFinset.erase i).card = ids.toFinset.card - 1 :=
    Finset.card_erase_of_mem (List.mem_toFinset.mpr hi)
  have h5 : ids.toFinset.card ≤ ids.length := ids.toFinset_card_le
  have h6 : 0 < ids.toFinset.card :=
    Finset.card_pos.mpr ⟨i, List.mem_toFinset.mpr hi⟩
  omega

/-- C4: a post update supplying a `productIds` set containing an id with
no matching product in the post's workspace is rejected as a whole: the
route fails and the store — the previously stored post–product
associations included — is exactly unchanged (the transaction aborts
with no partial writes). Assumes the store's primary-key invariant that
product ids are unique. -/
theorem putPost_foreign_product_rejected (db : DB) (userId ws postId : Nat)
    (u : PostUpdate) (ids digits : List Nat)
    (hnodup : (db.products.map (fun pr => pr.id)).Nodup)
    (hforeign : ∃ i ∈ ids, ∀ pr ∈ db.products,
      ¬(pr.id = i ∧ pr.workspaceId = ws)) :
    (putPostRoute db userId ws postId u (some ids) digits).1 ≠ 200 ∧
    (putPostRoute db userId ws postId u (some ids) digits).2 = db := by
  obtain ⟨i, hi, hfor⟩ := hforeign
  have hlt := filter_products_length_lt db.products ids ws i hnodup hi hfor
  have hne : ((db.products.filter (fun pr =>
      ids.contains pr.id && pr.workspaceId == ws)).length != ids.length) = true := by
    rw [bne_iff_ne]
    exact Nat.ne_of_lt hlt
  have hpos : 0 < ids.length := List.length_pos.mpr (List.ne_nil_of_mem hi)
  cases hv : verifyPostAccess db ws postId userId with
  | error e =>
      simp only [putPostRoute, hv]
      exact ⟨errorStatus_ne_200 e, by trivial⟩
  | ok pr =>
      simp only [putPostRoute, hv, hpos, if_true, hne]
      exact ⟨errorStatus_ne_200 _, by trivial⟩

/-- C4 witness: at the sample store, updating post 5 with the foreign
product id 99 fails and leaves the store untouched. -/
theorem putPost_foreign_product_rejected_witness :
    (putPostRoute sampleDB 1 1 5
      { title := none, slug := none, content := none, isPublished := none }
      (some [99]) []).1 ≠ 200 ∧
    (putPostRoute sampleDB 1 1 5
      { title := none, slug := none, content := none, isPublished := none }
      (some [99]) []).2 = sampleDB :=
  putPost_foreign_product_rejected sampleDB 1 1 5
    { title := none, slug := none, content := none, isPublished := none }
    [99] [] (by decide) (by decide)

/-! ## C5: category delete is blocked while products reference it -/

/-- C5: once access is verified, deleting a category that `N > 0`
products reference fails with the explicit conflict rejection (status
400, `"Cannot delete category"`) and leaves the whole store — the
category row and every referencing product included — unmodified; the
category row is hard-deleted exactly when zero products reference it,
and products are untouched either way. -/
theorem deleteCategory_blocked_when_referenced (db : DB)
    (userId ws catId : Nat) (m : Membership) (c : Category)
    (hacc : verifyCategoryAccess db ws catId userId = .ok (m, c)) :
    (0 < (db.products.filter (fun pr => pr.categoryId == some catId)).length →
      deleteCategoryRoute db userId ws catId =
        (400, some "Cannot delete category", db)) ∧
    ((db.products.filter (fun pr => pr.categoryId == some catId)).length = 0 →
      (deleteCategoryRoute db userId ws catId).1 = 200 ∧
      (deleteCategoryRoute db userId ws catId).2.2.categories =
        db.categories.filter (fun cc => !(cc.id == catId)) ∧
      (deleteCategoryRoute db userId ws catId).2.2.products = db.products) := by
  constructor
  · intro hpos
    simp only [deleteCategoryRoute, hacc, if_pos hpos]
  · intro hzero
    have hneg : ¬(0 < (db.products.filter (fun pr =>
        pr.categoryId == some catId)).length) := by omega
    simp only [deleteCategoryRoute, hacc, if_neg hneg]
    exact ⟨by trivial, by trivial, by trivial⟩

/-- Sample store without products (so category 3 is unreferenced). -/
def sampleDBNoProducts : DB :=
  { sampleDB with products := [] }

/-- C5 witness: at the sample store, category 3 (referenced by product
11) cannot be deleted and the store stays as it was; with the product
list emptied, the same request hard-deletes the category. -/
theorem deleteCategory_blocked_when_referenced_witness :
    deleteCategoryRoute sampleDB 1 1 3 =
      (400, some "Cannot delete category", sampleDB) ∧
    ((deleteCategoryRoute sampleDBNoProducts 1 1 3).1 = 200 ∧
      (deleteCategoryRoute sampleDBNoProducts 1 1 3).2.2.categories =
        sampleDBNoProducts.categories.filter (fun cc => !(cc.id == 3)) ∧
      (deleteCategoryRoute sampleDBNoProducts 1 1 3).2.2.products =
        sampleDBNoProducts.products) :=
  ⟨(deleteCategory_blocked_when_referenced sampleDB 1 1 3 sampleMember
      sampleCategory (by rfl)).1 (by decide),
   (deleteCategory_blocked_when_referenced sampleDBNoProducts 1 1 3 sampleMember
      sampleCategory (by rfl)).2 (by decide)⟩

/-! ## C6: dashboard routing target selection -/

def wsAlpha : Workspace :=
  { id := 1, slug := "alpha", createdAt := 1, updatedAt := 10, deletedAt := none }

def wsBeta : Workspace :=
  { id := 2, slug := "beta", createdAt := 2, updatedAt := 5, deletedAt := none }

def dbRouting : DB :=
  { memberships := [{ userId := 1, workspaceId := 1, role := .OWNER },
      { userId := 1, workspaceId := 2, role := .OWNER }],
    workspaces := [wsAlpha, wsBeta], posts := [], products := [],
    categories := [], affiliateLinks := [], postProducts := [] }

/-- C6 counterexample: the middle tier of the claimed selection cascade
("otherwise the most-recently-updated membership workspace") is not what
the code does. User 1 belongs to `alpha` (created 1, updated 10) and
`beta` (created 2, updated 5) and sends no cookie. The workspace list is
ordered by creation time descending, so the middleware redirects to
`beta`'s dashboard — yet the most-recently-updated membership workspace
is `alpha`. -/
theorem middleware_most_recent_counterexample :
    getWorkspacesApi dbRouting 1 = [wsBeta, wsAlpha] ∧
    mostRecentlyUpdated (getWorkspacesApi dbRouting 1) = some wsAlpha ∧
    wsAlpha.updatedAt = 10 ∧ wsBeta.updatedAt = 5 ∧
    middleware true "USER" "/dashboard" none
      (.ok (getWorkspacesApi dbRouting 1)) = .redirect "/beta/dashboard" ∧
    MwResult.redirect "/beta/dashboard" ≠ .redirect "/alpha/dashboard" := by
  decide

/-- C6 (amended): on the generic dashboard path with a session and a
successful membership lookup, the middleware selects the workspace whose
slug matches the truthy "last workspace" cookie when one is among the
returned memberships; otherwise the first workspace of the returned
list, which `GET /api/workspaces` orders by creation time descending
(not by update time); with zero memberships it issues no redirect, so
the user stays for onboarding. -/
theorem middleware_routing_selection (db : DB) (userId : Nat)
    (role : String) (cookie : Option String) :
    (getWorkspacesApi db userId = [] →
      middleware true role "/dashboard" cookie
        (.ok (getWorkspacesApi db userId)) = .next) ∧
    (∀ c t, cookie = some c → c ≠ "" →
      (getWorkspacesApi db userId).find? (fun w => w.slug == c) = some t →
      middleware true role "/dashboard" cookie
        (.ok (getWorkspacesApi db userId)) =
        .redirect ("/" ++ t.slug ++ "/dashboard")) ∧
    (∀ c w rest, cookie = some c → c ≠ "" →
      (getWorkspacesApi db userId).find? (fun v => v.slug == c) = none →
      getWorkspacesApi db userId = w :: rest →
      middleware true role "/dashboard" cookie
        (.ok (getWorkspacesApi db userId)) =
        .redirect ("/" ++ w.slug ++ "/dashboard")) ∧
    ((cookie = none ∨ cookie = some "") → ∀ w rest,
      getWorkspacesApi db userId = w :: rest →
      middleware true role "/dashboard" cookie
        (.ok (getWorkspacesApi db userId)) =
        .redirect ("/" ++ w.slug ++ "/dashboard")) := by
  have hsw : (jsStartsWith "/dashboard" "/admin") = false := by decide
  refine ⟨?_, ?_, ?_, ?_⟩
  · intro hnil
    rw [hnil]
    simp [middleware, hsw]
  · intro c t hc hcne hfind
    have hmem := List.mem_of_find?_eq_some hfind
    cases hlist : getWorkspacesApi db userId with
    | nil => rw [hlist] at hmem; simp at hmem
    | cons w rest =>
        rw [hlist] at hfind
        subst hc
        simp [middleware, hsw, hcne, hlist, hfind]
  · intro c w rest hc hcne hfind hlist
    rw [hlist] at hfind
    subst hc
    simp [middleware, hsw, hcne, hlist, hfind]
  · rintro (rfl | rfl) w rest hlist <;> simp [middleware, hsw, hlist]

/-- C6 witness: with cookie `"alpha"`, the middleware redirects user 1
to `alpha`'s dashboard even though `beta` heads the list. -/
theorem middleware_routing_selection_witness :
    middleware true "USER" "/dashboard" (some "alpha")
      (.ok (getWorkspacesApi dbRouting 1)) = .redirect "/alpha/dashboard" :=
  (middleware_routing_selection dbRouting 1 "USER" (some "alpha")).2.1
    "alpha" wsAlpha rfl (by decide) (by rfl)

/-! ## C7: missing or soft-deleted single resource -/

/-- A soft-deleted post of workspace 1. -/
def deletedPost : Post :=
  { id := 7, workspaceId := 1, slug := "gone", title := "gone",
    content := "", excerpt := "", isPublished := false, createdAt := 2,
    deletedAt := some 2 }

def dbWithDeleted : DB :=
  { sampleDB with posts := [samplePost, deletedPost] }

/-- C7: the claim promises status 404 for a single-resource read whose
target is absent or soft-deleted, but the code returns 500 there:
`verifyPostAccess` throws `"Post not found or access denied"`, and the
route's catch block only maps messages containing `"Access denied"`
(capital A) to 403, so the lowercase message falls through to the
generic 500 — the handler's own 404 branch is unreachable. Member 1
reads absent post 99 and soft-deleted post 7: both yield 500, while a
true membership failure (user 9) yields 403. -/
theorem getPost_missing_returns_500 :
    sampleDB.posts.all (fun p => p.id != 99) = true ∧
    getPostRoute sampleDB 1 1 99 = (500, none) ∧
    deletedPost.deletedAt = some 2 ∧
    getPostRoute dbWithDeleted 1 1 7 = (500, none) ∧
    getPostRoute sampleDB 9 1 5 = (403, none) ∧
    jsIncludes "Post not found or access denied" "Access denied" = false := by
  decide

/-! ## C8: the routing resolver fails open -/

/-- C8: when the middleware's workspace-membership lookup fails — the
internal fetch throws, or the internal response is non-OK — the request
on the generic dashboard path is not blocked: the middleware answers
`NextResponse.next()`, continuing the request to its originally
requested destination, for every role and cookie. -/
theorem middleware_fails_open (role : String) (cookie : Option String) :
    middleware true role "/dashboard" cookie .failure = .next ∧
    middleware true role "/dashboard" cookie .notOk = .next := by
  have hsw : (jsStartsWith "/dashboard" "/admin") = false := by decide
  constructor <;> simp [middleware, hsw]

/-! ## C9 and C10: soft delete -/

/-- Inversion of a successful post delete: the target post was stored,
non-deleted, in the workspace, and the next store state stamps
`deletedAt := now` on every row with the target id. -/
theorem deletePost_success_inv (db : DB) (userId ws postId now : Nat)
    (db' : DB)
    (hdel : deletePostRoute db userId ws postId now = (200, db')) :
    ∃ p ∈ db.posts, p.id = postId ∧ p.workspaceId = ws ∧
      p.deletedAt = none ∧
      db' = { db with posts := db.posts.map (fun q =>
        if q.id == postId then { q with deletedAt := some now } else q) } := by
  unfold deletePostRoute at hdel
  cases hv : verifyPostAccess db ws postId userId with
  | error e =>
      rw [hv] at hdel
      simp only [Prod.mk.injEq] at hdel
      exact absurd hdel.1 (errorStatus_ne_200 e)
  | ok pr =>
      rw [hv] at hdel
      simp only [Prod.mk.injEq] at hdel
      unfold verifyPostAccess at hv
      cases hm : db.memberships.find? (fun m =>
          m.workspaceId == ws && m.userId == userId) with
      | none => rw [hm] at hv; simp at hv
      | some uw =>
          rw [hm] at hv
          cases hf : db.posts.find? (fun p =>
              p.id == postId && p.workspaceId == ws &&
              p.deletedAt == none) with
          | none => rw [hf] at hv; simp at hv
          | some p =>
              have hp := List.find?_some hf
              simp only [Bool.and_eq_true, beq_iff_eq] at hp
              exact ⟨p, List.mem_of_find?_eq_some hf, hp.1.1, hp.1.2, hp.2,
                hdel.2.symm⟩

/-- C9: after soft-deleting post `P`, every default-scope read of `P`'s
workspace's posts — any reader, page, search and publish filter —
excludes `P`, while the explicit "include deleted" read does include the
stored row for `P` (now carrying the delete timestamp). -/
theorem softDelete_excluded_from_default_reads (db : DB)
    (userId ws postId now : Nat) (db' : DB)
    (hdel : deletePostRoute db userId ws postId now = (200, db')) :
    (∀ uid page limit search published posts,
      (getPostsRoute db' uid ws page limit search published).2 = some posts →
      ∀ q ∈ posts, q.id ≠ postId) ∧
    (∃ q ∈ listPostsIncludeDeleted db' ws,
      q.id = postId ∧ q.deletedAt = some now) := by
  obtain ⟨p, hpmem, hpid, hpws, hpdel, rfl⟩ :=
    deletePost_success_inv db userId ws postId now db' hdel
  constructor
  · intro uid page limit search published posts hposts q hq
    unfold getPostsRoute at hposts
    cases hv2 : verifyWorkspaceMember
        { db with posts := db.posts.map (fun q =>
          if q.id == postId then { q with deletedAt := some now } else q) }
        ws uid with
    | error e => rw [hv2] at hposts; simp at hposts
    | ok uw2 =>
        rw [hv2] at hposts
        simp only [Option.some.injEq] at hposts
        subst hposts
        have h1 := List.mem_of_mem_take hq
        have h2 := List.mem_of_mem_drop h1
        have h3 := (mem_sortDesc (fun p => p.createdAt) q _).mp h2
        have h4 := List.of_mem_filter h3
        have h5 := List.mem_of_mem_filter h3
        unfold postListWhere at h4
        simp only [Bool.and_eq_true, beq_iff_eq] at h4
        have hqdel : q.deletedAt = none := h4.1.1.2
        simp only [List.mem_map] at h5
        obtain ⟨r, hr, hrq⟩ := h5
        intro hqid
        by_cases hrid : r.id = postId
        · rw [if_pos (by simp [hrid])] at hrq
          rw [← hrq] at hqdel
          simp at hqdel
        · rw [if_neg (by simp [hrid])] at hrq
          rw [← hrq] at hqid
          exact hrid hqid
  · refine ⟨{ p with deletedAt := some now }, ?_, by simp [hpid], by simp⟩
    unfold listPostsIncludeDeleted
    rw [List.mem_filter]
    constructor
    · simp only [List.mem_map]
      exact ⟨p, hpmem, by rw [if_pos (by simp [hpid])]⟩
    · simp [hpws]

/-- C9 witness: deleting sample post 5 at time 42 succeeds, and the
include-deleted read of workspace 1 still contains a row with id 5 and
delete timestamp 42 (while the default read is empty). -/
theorem softDelete_excluded_from_default_reads_witness :
    (deletePostRoute sampleDB 1 1 5 42).1 = 200 ∧
    (getPostsRoute (deletePostRoute sampleDB 1 1 5 42).2 1 1 1 20 "" none).2 =
      some [] ∧
    (∃ q ∈ listPostsIncludeDeleted (deletePostRoute sampleDB 1 1 5 42).2 1,
      q.id = 5 ∧ q.deletedAt = some 42) :=
  ⟨by decide, by decide,
    (softDelete_excluded_from_default_reads sampleDB 1 1 5 42
      (deletePostRoute sampleDB 1 1 5 42).2 (by rfl)).2⟩

/-- C10 (implicit): soft delete is not idempotent at the public
interface. After a successful soft delete, any later DELETE for the same
(workspace, post) — by any caller and at any time — fails (its status is
never 200) and leaves the store exactly as it was, so the delete
timestamp stored by the first deletion is never overwritten. -/
theorem softDelete_not_idempotent (db : DB) (userId ws postId t1 : Nat)
    (db1 : DB)
    (hdel : deletePostRoute db userId ws postId t1 = (200, db1)) :
    (∀ uid2 t2, (deletePostRoute db1 uid2 ws postId t2).1 ≠ 200 ∧
      (deletePostRoute db1 uid2 ws postId t2).2 = db1) ∧
    (∃ q ∈ db1.posts, q.id = postId ∧ q.deletedAt = some t1) := by
  obtain ⟨p, hpmem, hpid, hpws, hpdel, rfl⟩ :=
    deletePost_success_inv db userId ws postId t1 db1 hdel
  constructor
  · intro uid2 t2
    have hnone : ({ db with posts := db.posts.map (fun q =>
        if q.id == postId then { q with deletedAt := some t1 } else q)
        } : DB).posts.find? (fun p =>
        p.id == postId && p.workspaceId == ws && p.deletedAt == none) = none := by
      rw [List.find?_eq_none]
      intro q hq
      simp only [List.mem_map] at hq
      obtain ⟨r, hr, hrq⟩ := hq
      by_cases hrid : r.id = postId
      · rw [if_pos (by simp [hrid])] at hrq
        rw [← hrq]
        simp
      · rw [if_neg (by simp [hrid])] at hrq
        rw [← hrq]
        simp [hrid]
    cases hm2 : ({ db with posts := db.posts.map (fun q =>
        if q.id == postId then { q with deletedAt := some t1 } else q)
        } : DB).memberships.find? (fun m =>
        m.workspaceId == ws && m.userId == uid2) with
    | none =>
        simp only [deletePostRoute, verifyPostAccess, hm2]
        exact ⟨errorStatus_ne_200 _, by trivial⟩
    | some uw2 =>
        simp only [deletePostRoute, verifyPostAccess, hm2, hnone]
        exact ⟨errorStatus_ne_200 _, by trivial⟩
  · refine ⟨{ p with deletedAt := some t1 }, ?_, by simp [hpid], by simp⟩
    simp only [List.mem_map]
    exact ⟨p, hpmem, by rw [if_pos (by simp [hpid])]⟩

/-- C10 witness: after deleting sample post 5 at time 42, a second
delete at time 77 fails and leaves the store (with its stamp 42)
unchanged. -/
theorem softDelete_not_idempotent_witness :
    (deletePostRoute (deletePostRoute sampleDB 1 1 5 42).2 1 1 5 77).1 ≠ 200 ∧
    (deletePostRoute (deletePostRoute sampleDB 1 1 5 42).2 1 1 5 77).2 =
      (deletePostRoute sampleDB 1 1 5 42).2 :=
  (softDelete_not_idempotent sampleDB 1 1 5 42
    (deletePostRoute sampleDB 1 1 5 42).2 (by rfl)).1 1 77

end AffiFlow
